import Mathlib

/-!
A shallow embedding of the Softsplit/place-web Cloudflare Worker
(canvas persistence over WebSocket).  The embedded definitions follow the
worker source in src/test.js (the worker half of the file): the message
router handleWebSocketMessage, the validators validateMapId and
validatePixelData, and the handlers handleRequestCanvasData (with
sendChunkedCanvasData), handlePixelUpdate and handleSaveCanvas.

Modelling conventions:
* JavaScript values are embedded as the inductive JSValue.  Numeric
  payloads are carried as integers: the worker only inspects the typeof
  tag of numeric fields and compares them with strict equality, so the
  exact numeric carrier is irrelevant to every property proved here.
* The KV store (env.CANVAS_STORAGE) is a function from keys to an
  optional stored pixel list.  The worker stores JSON.stringify of the
  list and parses it back on load; JSON encode/decode is assumed to be
  inverse on stored values, so the adapter is modelled as storing the
  list itself.
* Outbound frames (websocket.send of a JSON object) are the inductive
  OutMsg, one constructor per frame shape the worker emits.
* An inbound frame is its byte length together with the result of
  JSON.parse (none when parsing throws).
-/

namespace PlaceWeb

/-- JavaScript runtime values, as far as the worker inspects them. -/
inductive JSValue where
  | undefined
  | null
  | bool (b : Bool)
  | num (n : Int)
  | str (s : String)
  | obj (fields : List (String × JSValue))
  | arr (elems : List JSValue)

/-- JavaScript truthiness of a value (the implicit boolean coercion used by
the worker's `&&` chains and `if` tests).  NaN is not modelled; no claim
involves it. -/
def jsTruthy : JSValue → Bool
  | .undefined => false
  | .null => false
  | .bool b => b
  | .num n => n != 0
  | .str s => s != ""
  | .obj _ => true
  | .arr _ => true

/-- The JavaScript `typeof` operator on the embedded values. -/
def jsTypeof : JSValue → String
  | .undefined => "undefined"
  | .null => "object"
  | .bool _ => "boolean"
  | .num _ => "number"
  | .str _ => "string"
  | .obj _ => "object"
  | .arr _ => "object"

/-- JavaScript member access `v.k`.  Only objects carry fields; access on a
primitive yields undefined.  (Access on null/undefined throws in JS, but
every such access in the worker is guarded by a truthiness check, so the
thrown case is never reached and is mapped to undefined here.) -/
def getField (v : JSValue) (k : String) : JSValue :=
  match v with
  | .obj fields => (fields.lookup k).getD .undefined
  | _ => .undefined

/-- The string payload of a string value (only read after a typeof check). -/
def jsStrVal : JSValue → String
  | .str s => s
  | _ => ""

/-- JavaScript strict equality `===` on the values the worker compares.
Objects and arrays compare by reference in JS and are mapped to false
here; the worker only ever applies `===` to the numeric Position fields
of validated pixels, where reference equality is never exercised. -/
def jsStrictEq : JSValue → JSValue → Bool
  | .undefined, .undefined => true
  | .null, .null => true
  | .bool a, .bool b => a == b
  | .num a, .num b => a == b
  | .str a, .str b => a == b
  | _, _ => false

/-- Characters admitted by the map-id regex `/^[a-zA-Z0-9._-]+$/`. -/
def isMapIdChar (c : Char) : Bool :=
  (('a' ≤ c && c ≤ 'z') || ('A' ≤ c && c ≤ 'Z') || ('0' ≤ c && c ≤ '9')
    || c == '.' || c == '_' || c == '-')

/-- validateMapId (src/test.js lines 241-249): truthy, a string, length in
(0, 100], and every character matched by `/^[a-zA-Z0-9._-]+$/`. -/
def validateMapId (mapIdent : JSValue) : Bool :=
  jsTruthy mapIdent
    && jsTypeof mapIdent == "string"
    && (jsStrVal mapIdent).length > 0
    && (jsStrVal mapIdent).length ≤ 100
    && (jsStrVal mapIdent).toList.all isMapIdChar

/-- validatePixelData (src/test.js lines 332-346): the `&&` chain checking
a truthy value with a truthy Position holding numeric x and y, a truthy
Color holding numeric r, g, b, a, a string PlacedBy, and a boolean
IsActive. -/
def validatePixelData (pixelData : JSValue) : Bool :=
  jsTruthy pixelData
    && jsTruthy (getField pixelData "Position")
    && jsTypeof (getField (getField pixelData "Position") "x") == "number"
    && jsTypeof (getField (getField pixelData "Position") "y") == "number"
    && jsTruthy (getField pixelData "Color")
    && jsTypeof (getField (getField pixelData "Color") "r") == "number"
    && jsTypeof (getField (getField pixelData "Color") "g") == "number"
    && jsTypeof (getField (getField pixelData "Color") "b") == "number"
    && jsTypeof (getField (getField pixelData "Color") "a") == "number"
    && jsTypeof (getField pixelData "PlacedBy") == "string"
    && jsTypeof (getField pixelData "IsActive") == "boolean"

/-- The KV store binding env.CANVAS_STORAGE: a key either holds a stored
pixel list or is absent.  JSON encode/decode is assumed inverse on stored
values (the worker writes JSON.stringify of the list and parses on load). -/
def Store : Type := String → Option (List JSValue)

/-- env.CANVAS_STORAGE.put: point update of the store. -/
def storePut (store : Store) (key : String) (val : List JSValue) : Store :=
  fun k => if k = key then some val else store k

/-- The empty store (no canvas persisted for any map). -/
def emptyStore : Store := fun _ => none

/-- Outbound frames, one constructor per JSON shape the worker sends. -/
inductive OutMsg where
  | errorMsg (message : String)
  | canvasData (mapIdent : JSValue) (pixelData : List JSValue)
  | canvasDataChunk (mapIdent : JSValue) (pixelData : List JSValue)
      (chunkIndex totalChunks : Nat) (isLastChunk : Bool)
  | pixelUpdateAck (mapIdent : JSValue) (singlePixel : JSValue)
  | saveCanvasAck (mapIdent : JSValue) (pixelCount : Nat)

/-- CONFIG.MAX_MESSAGE_SIZE. -/
def MAX_MESSAGE_SIZE : Nat := 1000000

/-- CONFIG.CHUNK_SIZE. -/
def CHUNK_SIZE : Nat := 100

/-- The position-match test used by both branches of handlePixelUpdate:
`p.Position.x === pixelData.Position.x && p.Position.y === pixelData.Position.y`. -/
def samePos (p pixelData : JSValue) : Bool :=
  jsStrictEq (getField (getField p "Position") "x")
      (getField (getField pixelData "Position") "x")
    && jsStrictEq (getField (getField p "Position") "y")
      (getField (getField pixelData "Position") "y")

/-- The merge step of handlePixelUpdate (src/test.js lines 382-404).
IsActive truthy: findIndex of the first position match, replace it in
place if found (canvasData[existingIndex] = pixelData), else push.
Otherwise: filter out every entry at the incoming position. -/
def applyPixelMerge (canvasData : List JSValue) (pixelData : JSValue) :
    List JSValue :=
  if jsTruthy (getField pixelData "IsActive") then
    match canvasData.findIdx? (fun p => samePos p pixelData) with
    | some existingIndex => canvasData.set existingIndex pixelData
    | none => canvasData ++ [pixelData]
  else
    canvasData.filter (fun p => !(samePos p pixelData))

/-- sendChunkedCanvasData (src/test.js lines 304-327): ceil(N / CHUNK_SIZE)
chunk frames, the i-th carrying canvasData.slice(i*CHUNK_SIZE,
i*CHUNK_SIZE + CHUNK_SIZE), in emission order i = 0, 1, ....  Math.ceil of
the exact real quotient equals the rounded-up natural division used here. -/
def sendChunkedCanvasData (mapIdent : JSValue) (canvasData : List JSValue) :
    List OutMsg :=
  let totalChunks := (canvasData.length + (CHUNK_SIZE - 1)) / CHUNK_SIZE
  (List.range totalChunks).map (fun i =>
    .canvasDataChunk mapIdent
      ((canvasData.drop (i * CHUNK_SIZE)).take CHUNK_SIZE)
      i totalChunks (i == totalChunks - 1))

/-- handleRequestCanvasData (src/test.js lines 254-299): validate the map
id, load the canvas (empty when absent), send chunked when its length
exceeds CHUNK_SIZE, else one canvas_data frame.  The store is never
written. -/
def handleRequestCanvasData (store : Store) (message : JSValue) :
    Store × List OutMsg :=
  let mapIdent := getField message "MapIdent"
  if !validateMapId mapIdent then
    (store, [.errorMsg "Invalid map ID format"])
  else
    let canvasData := (store ("canvas:" ++ jsStrVal mapIdent)).getD []
    if canvasData.length > CHUNK_SIZE then
      (store, sendChunkedCanvasData mapIdent canvasData)
    else
      (store, [.canvasData mapIdent canvasData])

/-- handlePixelUpdate (src/test.js lines 351-423): validate the map id and
the SinglePixel payload, load the canvas, apply the merge, write the
result back, acknowledge with the applied pixel. -/
def handlePixelUpdate (store : Store) (message : JSValue) :
    Store × List OutMsg :=
  let mapIdent := getField message "MapIdent"
  let pixelData := getField message "SinglePixel"
  if !validateMapId mapIdent then
    (store, [.errorMsg "Invalid map ID format"])
  else if !validatePixelData pixelData then
    (store, [.errorMsg "Invalid pixel data format"])
  else
    let key := "canvas:" ++ jsStrVal mapIdent
    let canvasData := (store key).getD []
    let newData := applyPixelMerge canvasData pixelData
    (storePut store key newData, [.pixelUpdateAck mapIdent pixelData])

/-- handleSaveCanvas (src/test.js lines 428-479): validate the map id,
require PixelData to be an array, validate every element, then store the
submitted array verbatim and acknowledge with its length. -/
def handleSaveCanvas (store : Store) (message : JSValue) :
    Store × List OutMsg :=
  let mapIdent := getField message "MapIdent"
  let pixelData := getField message "PixelData"
  if !validateMapId mapIdent then
    (store, [.errorMsg "Invalid map ID format"])
  else
    match pixelData with
    | .arr l =>
      if l.all validatePixelData then
        (storePut store ("canvas:" ++ jsStrVal mapIdent) l,
          [.saveCanvasAck mapIdent l.length])
      else
        (store, [.errorMsg "Invalid pixel data in array"])
    | _ => (store, [.errorMsg "Pixel data must be an array"])

/-- One inbound websocket frame: its byte length, and the result of
JSON.parse on its text (none when parsing throws). -/
structure Frame where
  byteLength : Nat
  parsed : Option JSValue

/-- handleWebSocketMessage (src/test.js lines 184-220): size ceiling
before parsing, then the parse check, then the Type structure check
(`!message.Type || typeof message.Type !== 'string'`), then dispatch on
Type with an unknown-type error naming the offending type. -/
def handleWebSocketMessage (store : Store) (fr : Frame) :
    Store × List OutMsg :=
  if fr.byteLength > MAX_MESSAGE_SIZE then
    (store, [.errorMsg "Message too large"])
  else
    match fr.parsed with
    | none => (store, [.errorMsg "Invalid JSON format"])
    | some message =>
      let ty := getField message "Type"
      if !jsTruthy ty || jsTypeof ty != "string" then
        (store, [.errorMsg "Missing or invalid message type"])
      else
        match jsStrVal ty with
        | "request_canvas_data" => handleRequestCanvasData store message
        | "pixel_update" => handlePixelUpdate store message
        | "save_canvas" => handleSaveCanvas store message
        | t => (store, [.errorMsg ("Unknown message type: " ++ t)])

/-- The session loop of handleSession: each inbound frame is processed
independently against the current store; the worker never closes the
connection, so every frame of the session is processed. -/
def processFrames (store : Store) : List Frame → Store × List OutMsg
  | [] => (store, [])
  | fr :: rest =>
    let out := handleWebSocketMessage store fr
    let outs := processFrames out.1 rest
    (outs.1, out.2 ++ outs.2)

/-- A request_canvas_data frame body for map id s. -/
def mkRequestMsg (s : String) : JSValue :=
  .obj [("Type", .str "request_canvas_data"), ("MapIdent", .str s)]

/-- A pixel_update frame body for map id s and pixel px. -/
def mkPixelUpdateMsg (s : String) (px : JSValue) : JSValue :=
  .obj [("Type", .str "pixel_update"), ("MapIdent", .str s),
    ("SinglePixel", px)]

/-- A save_canvas frame body for map id s and pixel array l. -/
def mkSaveMsg (s : String) (l : List JSValue) : JSValue :=
  .obj [("Type", .str "save_canvas"), ("MapIdent", .str s),
    ("PixelData", .arr l)]

/-- The pixel payload carried by an outbound frame (used to state chunk
reconstruction: canvas_data and canvas_data_chunk frames carry pixels,
other frames none). -/
def pixelsOfOut : OutMsg → List JSValue
  | .canvasData _ pixelData => pixelData
  | .canvasDataChunk _ pixelData _ _ _ => pixelData
  | _ => []

/-- The IsLastChunk flag of an outbound frame (false on non-chunk frames). -/
def isLastChunkOf : OutMsg → Bool
  | .canvasDataChunk _ _ _ _ isLastChunk => isLastChunk
  | _ => false

/-- Recursive characterization of the active-branch merge (findIndex +
in-place assignment, else push): replace the first position match, keep
everything else. -/
def upsertFirst (pixelData : JSValue) : List JSValue → List JSValue
  | [] => [pixelData]
  | q :: rest =>
    if samePos q pixelData then pixelData :: rest
    else q :: upsertFirst pixelData rest

/-- A sample pixel payload: active, at (0,0), red, placed by test_user
(the payload of the repository's own test page). -/
def pxRed : JSValue :=
  .obj [("Position", .obj [("x", .num 0), ("y", .num 0)]),
    ("Color", .obj [("r", .num 1), ("g", .num 0), ("b", .num 0), ("a", .num 1)]),
    ("PlacedBy", .str "test_user"), ("IsActive", .bool true)]

/-- A second sample payload at the same position (0,0), green. -/
def pxGreen : JSValue :=
  .obj [("Position", .obj [("x", .num 0), ("y", .num 0)]),
    ("Color", .obj [("r", .num 0), ("g", .num 1), ("b", .num 0), ("a", .num 1)]),
    ("PlacedBy", .str "other_user"), ("IsActive", .bool true)]

/-- A sample payload at a different position (5,7). -/
def pxFar : JSValue :=
  .obj [("Position", .obj [("x", .num 5), ("y", .num 7)]),
    ("Color", .obj [("r", .num 0), ("g", .num 0), ("b", .num 1), ("a", .num 1)]),
    ("PlacedBy", .str "test_user"), ("IsActive", .bool true)]

/-- A deletion payload: IsActive false, at (0,0). -/
def pxDelete : JSValue :=
  .obj [("Position", .obj [("x", .num 0), ("y", .num 0)]),
    ("Color", .obj [("r", .num 0), ("g", .num 0), ("b", .num 0), ("a", .num 0)]),
    ("PlacedBy", .str "test_user"), ("IsActive", .bool false)]

/-- A deletion payload at a position (9,9) used for the absent-position
delete scenario. -/
def pxDeleteFar : JSValue :=
  .obj [("Position", .obj [("x", .num 9), ("y", .num 9)]),
    ("Color", .obj [("r", .num 0), ("g", .num 0), ("b", .num 0), ("a", .num 0)]),
    ("PlacedBy", .str "test_user"), ("IsActive", .bool false)]

/-- A payload that is well-shaped except that PlacedBy is the empty
string. -/
def pxEmptyPlacedBy : JSValue :=
  .obj [("Position", .obj [("x", .num 0), ("y", .num 0)]),
    ("Color", .obj [("r", .num 1), ("g", .num 0), ("b", .num 0), ("a", .num 1)]),
    ("PlacedBy", .str ""), ("IsActive", .bool true)]

/-- The shape of a pixel payload as the specification words it, minus the
non-emptiness of PlacedBy: a Position with numeric x and y, a Color with
numeric r, g, b and a, a string PlacedBy, and a boolean IsActive.  This
is the comparison predicate written from the specification text, not from
the code. -/
def specPixelFields (p : JSValue) : Prop :=
  (∃ n : Int, getField (getField p "Position") "x" = .num n) ∧
  (∃ n : Int, getField (getField p "Position") "y" = .num n) ∧
  (∃ n : Int, getField (getField p "Color") "r" = .num n) ∧
  (∃ n : Int, getField (getField p "Color") "g" = .num n) ∧
  (∃ n : Int, getField (getField p "Color") "b" = .num n) ∧
  (∃ n : Int, getField (getField p "Color") "a" = .num n) ∧
  (∃ s : String, getField p "PlacedBy" = .str s) ∧
  (∃ b : Bool, getField p "IsActive" = .bool b)

/-- The full shape claimed by the specification: the weak shape plus a
non-empty PlacedBy.  Written from the specification text, not from the
code. -/
def specPixelShapeStrict (p : JSValue) : Prop :=
  specPixelFields p ∧ ∃ s : String, getField p "PlacedBy" = .str s ∧ s ≠ ""

/-- A small frame whose parsed body carries an empty-string Type (the
JSON text is 11 bytes). -/
def frameEmptyType : Frame :=
  ⟨11, some (JSValue.obj [("Type", JSValue.str "")])⟩

/-! Helper lemmas about the embedded JavaScript primitives. -/

theorem jsTypeof_number {v : JSValue} (h : (jsTypeof v == "number") = true) :
    ∃ n : Int, v = .num n := by
  cases v <;> first | exact ⟨_, rfl⟩ | simp [jsTypeof] at h

theorem jsTypeof_string {v : JSValue} (h : (jsTypeof v == "string") = true) :
    ∃ s : String, v = .str s := by
  cases v <;> first | exact ⟨_, rfl⟩ | simp [jsTypeof] at h

theorem jsTypeof_boolean {v : JSValue} (h : (jsTypeof v == "boolean") = true) :
    ∃ b : Bool, v = .bool b := by
  cases v <;> first | exact ⟨_, rfl⟩ | simp [jsTypeof] at h

theorem obj_of_getField_not_missing {v : JSValue} {k : String}
    (h : getField v k ≠ .undefined) : ∃ fields, v = .obj fields := by
  cases v <;> first | exact ⟨_, rfl⟩ | exact absurd rfl h

/-- A validated pixel matches its own position: its x and y fields are
numbers and strict equality on numbers is reflexive. -/
theorem samePos_self_of_valid {px : JSValue}
    (h : validatePixelData px = true) : samePos px px = true := by
  simp only [validatePixelData, Bool.and_eq_true] at h
  obtain ⟨nx, hx⟩ := jsTypeof_number h.1.1.1.1.1.1.1.1.2
  obtain ⟨ny, hy⟩ := jsTypeof_number h.1.1.1.1.1.1.1.2
  simp [samePos, hx, hy, jsStrictEq]

/-- A validated pixel carries a boolean IsActive field. -/
theorem isActive_bool_of_valid {px : JSValue}
    (h : validatePixelData px = true) :
    ∃ b : Bool, getField px "IsActive" = .bool b := by
  simp only [validatePixelData, Bool.and_eq_true] at h
  exact jsTypeof_boolean h.2

/-! Characterization of the active-branch merge: findIndex followed by an
in-place assignment (else a push) equals the first-match upsert
recursion. -/

theorem findIdx?_set_eq_upsertFirst (px : JSValue) :
    ∀ canvasData : List JSValue,
      (match canvasData.findIdx? (fun p => samePos p px) with
        | some existingIndex => canvasData.set existingIndex px
        | none => canvasData ++ [px]) = upsertFirst px canvasData := by
  intro canvasData
  induction canvasData with
  | nil => rfl
  | cons q rest ih =>
    rw [List.findIdx?_cons]
    by_cases h : samePos q px
    · simp [h, upsertFirst]
    · rw [List.findIdx?_succ]
      simp only [h, if_false, upsertFirst]
      cases hfi : rest.findIdx? (fun p => samePos p px) with
      | none =>
        rw [hfi] at ih
        simpa using ih
      | some i =>
        rw [hfi] at ih
        simpa using ih

theorem applyPixelMerge_active {canvasData : List JSValue} {px : JSValue}
    (hact : jsTruthy (getField px "IsActive") = true) :
    applyPixelMerge canvasData px = upsertFirst px canvasData := by
  unfold applyPixelMerge
  rw [if_pos hact]
  exact findIdx?_set_eq_upsertFirst px canvasData

theorem applyPixelMerge_inactive {canvasData : List JSValue} {px : JSValue}
    (hact : jsTruthy (getField px "IsActive") = false) :
    applyPixelMerge canvasData px
      = canvasData.filter (fun p => !(samePos p px)) := by
  unfold applyPixelMerge
  rw [if_neg (by simp [hact])]

/-! Observable consequences of the first-match upsert. -/

theorem upsertFirst_of_no_match (px : JSValue) :
    ∀ c : List JSValue, c.any (fun q => samePos q px) = false →
      upsertFirst px c = c ++ [px] := by
  intro c
  induction c with
  | nil => intro _; rfl
  | cons q rest ih =>
    intro h
    simp only [List.any_cons, Bool.or_eq_false_iff] at h
    simp [upsertFirst, h.1, ih h.2]

theorem upsertFirst_length_of_match (px : JSValue) :
    ∀ c : List JSValue, c.any (fun q => samePos q px) = true →
      (upsertFirst px c).length = c.length := by
  intro c
  induction c with
  | nil => intro h; simp at h
  | cons q rest ih =>
    intro h
    by_cases hq : samePos q px
    · simp [upsertFirst, hq]
    · simp only [List.any_cons, hq, Bool.false_or] at h
      simp [upsertFirst, hq, ih h]

theorem upsertFirst_filter_untouched {px : JSValue}
    (hself : samePos px px = true) :
    ∀ c : List JSValue,
      (upsertFirst px c).filter (fun q => !(samePos q px))
        = c.filter (fun q => !(samePos q px)) := by
  intro c
  induction c with
  | nil => simp [upsertFirst, hself]
  | cons q rest ih =>
    by_cases hq : samePos q px
    · simp [upsertFirst, hq, hself, List.filter_cons]
    · simp [upsertFirst, hq, List.filter_cons, ih]

theorem upsertFirst_countP_one {px : JSValue}
    (hself : samePos px px = true) :
    ∀ c : List JSValue, c.countP (fun q => samePos q px) ≤ 1 →
      (upsertFirst px c).countP (fun q => samePos q px) = 1 := by
  intro c
  induction c with
  | nil => intro _; simp [upsertFirst, hself]
  | cons q rest ih =>
    intro h
    by_cases hq : samePos q px
    · rw [List.countP_cons_of_pos (fun r => samePos r px) rest hq] at h
      have hrest : rest.countP (fun r => samePos r px) = 0 := by omega
      simp [upsertFirst, hq, hself, hrest]
    · rw [List.countP_cons_of_neg (fun r => samePos r px) rest hq] at h
      simp [upsertFirst, hq, ih h]

theorem upsertFirst_match_unique {px : JSValue}
    (hself : samePos px px = true) :
    ∀ c : List JSValue, c.countP (fun q => samePos q px) ≤ 1 →
      ∀ r ∈ upsertFirst px c, samePos r px = true → r = px := by
  intro c
  induction c with
  | nil =>
    intro _ r hr _
    simp [upsertFirst] at hr
    exact hr
  | cons q rest ih =>
    intro h r hr hmatch
    by_cases hq : samePos q px
    · rw [List.countP_cons_of_pos (fun r => samePos r px) rest hq] at h
      have hrest : rest.countP (fun q => samePos q px) = 0 := by omega
      rw [List.countP_eq_zero] at hrest
      simp [upsertFirst, hq] at hr
      rcases hr with rfl | hr
      · rfl
      · exact absurd hmatch (by simpa using hrest r hr)
    · rw [List.countP_cons_of_neg (fun r => samePos r px) rest hq] at h
      simp [upsertFirst, hq] at hr
      rcases hr with rfl | hr
      · exact absurd hmatch (by simp [hq])
      · exact ih h r hr hmatch

/-- Claim C1: for every canvas and every valid incoming pixel with
IsActive = true, the pixel_update merge appends the incoming pixel when
no entry matches its Position, replaces in place (length preserved) when
one does, and preserves the relative order of all untouched entries; and
for every canvas holding at most one pixel per Position, the updated
canvas contains exactly one pixel at that Position, equal to the
incoming payload. -/
theorem pixel_update_upsert_merge (canvas : List JSValue) (px : JSValue)
    (hvalid : validatePixelData px = true)
    (hactive : getField px "IsActive" = JSValue.bool true) :
    ((canvas.any (fun q => samePos q px) = false →
        applyPixelMerge canvas px = canvas ++ [px]) ∧
      (canvas.any (fun q => samePos q px) = true →
        (applyPixelMerge canvas px).length = canvas.length) ∧
      (applyPixelMerge canvas px).filter (fun q => !(samePos q px))
        = canvas.filter (fun q => !(samePos q px))) ∧
    (canvas.countP (fun q => samePos q px) ≤ 1 →
      (applyPixelMerge canvas px).countP (fun q => samePos q px) = 1 ∧
      ∀ r ∈ applyPixelMerge canvas px, samePos r px = true → r = px) := by
  have hact : jsTruthy (getField px "IsActive") = true := by
    rw [hactive]; rfl
  have hself := samePos_self_of_valid hvalid
  rw [applyPixelMerge_active hact]
  exact ⟨⟨upsertFirst_of_no_match px canvas,
      upsertFirst_length_of_match px canvas,
      upsertFirst_filter_untouched hself canvas⟩,
    fun hone => ⟨upsertFirst_countP_one hself canvas hone,
      upsertFirst_match_unique hself canvas hone⟩⟩

/-- Witness for C1: updating the two-pixel canvas [pxRed, pxFar] (one
pixel per position) with pxGreen at pxRed's position leaves exactly one
pixel at that position, equal to pxGreen. -/
theorem pixel_update_upsert_merge_witness :
    (validatePixelData pxGreen = true ∧
      getField pxGreen "IsActive" = JSValue.bool true ∧
      List.countP (fun q => samePos q pxGreen) [pxRed, pxFar] ≤ 1) ∧
    (List.countP (fun q => samePos q pxGreen)
        (applyPixelMerge [pxRed, pxFar] pxGreen) = 1 ∧
      ∀ r ∈ applyPixelMerge [pxRed, pxFar] pxGreen,
        samePos r pxGreen = true → r = pxGreen) :=
  ⟨⟨by decide, rfl, by decide⟩,
    (pixel_update_upsert_merge [pxRed, pxFar] pxGreen (by decide) rfl).2
      (by decide)⟩

theorem upsertFirst_countP_of_match {px : JSValue}
    (hself : samePos px px = true) :
    ∀ c : List JSValue, c.any (fun q => samePos q px) = true →
      (upsertFirst px c).countP (fun q => samePos q px)
        = c.countP (fun q => samePos q px) := by
  intro c
  induction c with
  | nil => intro h; simp at h
  | cons q rest ih =>
    intro h
    by_cases hq : samePos q px
    · simp [upsertFirst, hq, hself]
    · simp only [List.any_cons, hq, Bool.false_or] at h
      simp [upsertFirst, hq, ih h]

/-- The first-match upsert has a first matched index i: every earlier
entry does not match, position i now holds the incoming pixel, and every
other index is untouched. -/
theorem upsertFirst_first_index (px : JSValue) :
    ∀ c : List JSValue, c.any (fun q => samePos q px) = true →
      ∃ i, i < c.length ∧
        (∀ j, j < i → ∀ q, c.get? j = some q → samePos q px = false) ∧
        (upsertFirst px c).get? i = some px ∧
        (∀ j, j ≠ i → (upsertFirst px c).get? j = c.get? j) := by
  intro c
  induction c with
  | nil => intro h; simp at h
  | cons q rest ih =>
    intro h
    by_cases hq : samePos q px
    · refine ⟨0, by simp, by omega, ?_, ?_⟩
      · simp [upsertFirst, hq]
      · intro j hj
        obtain ⟨j, rfl⟩ := Nat.exists_eq_add_of_lt (Nat.pos_of_ne_zero hj)
        simp [upsertFirst, hq, Nat.add_comm]
    · simp only [List.any_cons, hq, Bool.false_or] at h
      obtain ⟨i, hlen, hbefore, hat, hother⟩ := ih h
      refine ⟨i + 1, by simpa using hlen, ?_, ?_, ?_⟩
      · intro j hj r hr
        cases j with
        | zero =>
          rw [List.get?_cons_zero, Option.some_inj] at hr
          rw [hr] at hq
          simpa using hq
        | succ j =>
          rw [List.get?_cons_succ] at hr
          exact hbefore j (by omega) r hr
      · simpa [upsertFirst, hq] using hat
      · intro j hj
        cases j with
        | zero => simp [upsertFirst, hq]
        | succ j =>
          simp only [upsertFirst, hq, if_false, List.get?_cons_succ]
          exact hother j (by omega)

/-- Claim C7: a valid IsActive = false pixel_update whose Position is not
present in the stored canvas leaves the store unchanged and still sends a
pixel_update_ack. -/
theorem inactive_update_absent_position_noop
    (store : Store) (s : String) (canvas : List JSValue) (px : JSValue)
    (hmap : validateMapId (JSValue.str s) = true)
    (hvalid : validatePixelData px = true)
    (hinactive : getField px "IsActive" = JSValue.bool false)
    (habsent : canvas.all (fun q => !(samePos q px)) = true)
    (hstore : store ("canvas:" ++ s) = some canvas) :
    handlePixelUpdate store (mkPixelUpdateMsg s px)
      = (store, [.pixelUpdateAck (JSValue.str s) px]) := by
  have hact : jsTruthy (getField px "IsActive") = false := by
    rw [hinactive]; rfl
  have hfilter : canvas.filter (fun p => !(samePos p px)) = canvas :=
    List.filter_eq_self.mpr (by simpa using habsent)
  have hput : storePut store ("canvas:" ++ s) canvas = store := by
    funext k
    unfold storePut
    by_cases hk : k = "canvas:" ++ s
    · rw [if_pos hk, hk, hstore]
    · rw [if_neg hk]
  have h1 : getField (mkPixelUpdateMsg s px) "MapIdent" = JSValue.str s := rfl
  have h2 : getField (mkPixelUpdateMsg s px) "SinglePixel" = px := rfl
  simp only [handlePixelUpdate, h1, h2, hmap, hvalid, Bool.not_true,
    if_false, Bool.false_eq_true]
  rw [show jsStrVal (JSValue.str s) = s from rfl, hstore]
  simp only [Option.getD_some]
  rw [applyPixelMerge_inactive hact, hfilter, hput]

/-- Witness for C7: deleting at the absent position (9,9) of the
one-pixel canvas [pxRed] stored for map m leaves the store unchanged and
acknowledges. -/
theorem inactive_update_absent_position_noop_witness :
    (validateMapId (JSValue.str "m") = true ∧
      validatePixelData pxDeleteFar = true ∧
      getField pxDeleteFar "IsActive" = JSValue.bool false ∧
      List.all [pxRed] (fun q => !(samePos q pxDeleteFar)) = true ∧
      storePut emptyStore "canvas:m" [pxRed] ("canvas:" ++ "m")
        = some [pxRed]) ∧
    handlePixelUpdate (storePut emptyStore "canvas:m" [pxRed])
        (mkPixelUpdateMsg "m" pxDeleteFar)
      = (storePut emptyStore "canvas:m" [pxRed],
          [.pixelUpdateAck (JSValue.str "m") pxDeleteFar]) :=
  ⟨⟨by decide, by decide, rfl, by decide, rfl⟩,
    inactive_update_absent_position_noop
      (storePut emptyStore "canvas:m" [pxRed]) "m" [pxRed] pxDeleteFar
      (by decide) (by decide) rfl (by decide) rfl⟩

theorem countP_bool_split (p : JSValue → Bool) (l : List JSValue) :
    l.countP p + l.countP (fun a => !(p a)) = l.length := by
  induction l with
  | nil => simp
  | cons a l ih =>
    by_cases h : p a <;> simp [List.countP_cons, h] <;> omega

/-- Claim C10: on a stored canvas holding two or more entries at the
incoming Position, an IsActive = true pixel_update replaces only the
first matching entry (every other index unchanged, pixel count and
per-position count preserved), while an IsActive = false pixel_update
removes every entry at that Position and keeps everything else. -/
theorem duplicate_position_update_semantics
    (canvas : List JSValue) (px : JSValue)
    (hvalid : validatePixelData px = true)
    (hdup : 2 ≤ canvas.countP (fun q => samePos q px)) :
    (getField px "IsActive" = JSValue.bool true →
      (applyPixelMerge canvas px).length = canvas.length ∧
      (applyPixelMerge canvas px).countP (fun q => samePos q px)
        = canvas.countP (fun q => samePos q px) ∧
      ∃ i, i < canvas.length ∧
        (∀ j, j < i → ∀ q, canvas.get? j = some q → samePos q px = false) ∧
        (applyPixelMerge canvas px).get? i = some px ∧
        (∀ j, j ≠ i →
          (applyPixelMerge canvas px).get? j = canvas.get? j)) ∧
    (getField px "IsActive" = JSValue.bool false →
      (applyPixelMerge canvas px).countP (fun q => samePos q px) = 0 ∧
      (∀ q, q ∈ applyPixelMerge canvas px ↔
        (q ∈ canvas ∧ samePos q px = false)) ∧
      (applyPixelMerge canvas px).length
          + canvas.countP (fun q => samePos q px) = canvas.length) := by
  have hany : canvas.any (fun q => samePos q px) = true := by
    have hpos : 0 < canvas.countP (fun q => samePos q px) := by omega
    rw [List.countP_pos_iff] at hpos
    rw [List.any_eq_true]
    simpa using hpos
  constructor
  · intro hactive
    have hact : jsTruthy (getField px "IsActive") = true := by
      rw [hactive]; rfl
    rw [applyPixelMerge_active hact]
    exact ⟨upsertFirst_length_of_match px canvas hany,
      upsertFirst_countP_of_match (samePos_self_of_valid hvalid) canvas hany,
      upsertFirst_first_index px canvas hany⟩
  · intro hinactive
    have hact : jsTruthy (getField px "IsActive") = false := by
      rw [hinactive]; rfl
    rw [applyPixelMerge_inactive hact]
    refine ⟨?_, ?_, ?_⟩
    · rw [List.countP_eq_zero]
      intro a ha
      rw [List.mem_filter] at ha
      simpa using ha.2
    · intro q
      rw [List.mem_filter]
      simp
    · rw [← List.countP_eq_length_filter]
      have hsplit := countP_bool_split (fun q => samePos q px) canvas
      omega

/-- Witness for C10: the canvas [pxRed, pxGreen, pxFar] holds two entries
at position (0,0); updating with the active pxGreen at (0,0) satisfies
both branches of the duplicate-position semantics. -/
theorem duplicate_position_update_semantics_witness :
    (validatePixelData pxGreen = true ∧
      2 ≤ List.countP (fun q => samePos q pxGreen) [pxRed, pxGreen, pxFar]) ∧
    ((getField pxGreen "IsActive" = JSValue.bool true →
      (applyPixelMerge [pxRed, pxGreen, pxFar] pxGreen).length
        = (3 : Nat) ∧
      (applyPixelMerge [pxRed, pxGreen, pxFar] pxGreen).countP
          (fun q => samePos q pxGreen)
        = List.countP (fun q => samePos q pxGreen)
            [pxRed, pxGreen, pxFar] ∧
      ∃ i, i < (3 : Nat) ∧
        (∀ j, j < i → ∀ q, List.get? [pxRed, pxGreen, pxFar] j = some q →
          samePos q pxGreen = false) ∧
        (applyPixelMerge [pxRed, pxGreen, pxFar] pxGreen).get? i
          = some pxGreen ∧
        (∀ j, j ≠ i →
          (applyPixelMerge [pxRed, pxGreen, pxFar] pxGreen).get? j
            = List.get? [pxRed, pxGreen, pxFar] j)) ∧
    (getField pxGreen "IsActive" = JSValue.bool false →
      (applyPixelMerge [pxRed, pxGreen, pxFar] pxGreen).countP
          (fun q => samePos q pxGreen) = 0 ∧
      (∀ q, q ∈ applyPixelMerge [pxRed, pxGreen, pxFar] pxGreen ↔
        (q ∈ [pxRed, pxGreen, pxFar] ∧ samePos q pxGreen = false)) ∧
      (applyPixelMerge [pxRed, pxGreen, pxFar] pxGreen).length
          + List.countP (fun q => samePos q pxGreen)
              [pxRed, pxGreen, pxFar] = (3 : Nat))) :=
  ⟨⟨by decide, by decide⟩,
    duplicate_position_update_semantics [pxRed, pxGreen, pxFar] pxGreen
      (by decide) (by decide)⟩

theorem mem_upsertFirst {px r : JSValue} :
    ∀ {c : List JSValue}, r ∈ upsertFirst px c → r ∈ c ∨ r = px := by
  intro c
  induction c with
  | nil =>
    intro h
    simp [upsertFirst] at h
    exact Or.inr h
  | cons q rest ih =>
    intro h
    by_cases hq : samePos q px
    · simp only [upsertFirst, hq, if_true, List.mem_cons] at h
      rcases h with rfl | h
      · exact Or.inr rfl
      · exact Or.inl (List.mem_cons_of_mem q h)
    · simp [upsertFirst, hq] at h
      rcases h with rfl | h
      · exact Or.inl (List.mem_cons_self r rest)
      · rcases ih h with h | h
        · exact Or.inl (List.mem_cons_of_mem q h)
        · exact Or.inr h

/-- Counterexample to claim C5 as stated: save_canvas writes the
submitted array verbatim, so a valid pixel whose IsActive is false IS
persisted into the stored canvas, contradicting the claim that no
operation ever stores an IsActive = false pixel. -/
theorem save_canvas_persists_inactive_pixel :
    validatePixelData pxDelete = true ∧
    getField pxDelete "IsActive" = JSValue.bool false ∧
    (handleSaveCanvas emptyStore (mkSaveMsg "m" [pxDelete])).1 "canvas:m"
      = some [pxDelete] :=
  ⟨by decide, rfl, rfl⟩

/-- Claim C5 (amended): the pixel_update path never writes an
IsActive = false pixel into the stored canvas — an active update writes
the incoming active pixel and a deletion only removes entries — so it
preserves the all-active invariant; save_canvas, by contrast, stores the
submitted sequence verbatim and can persist IsActive = false pixels. -/
theorem pixel_update_never_persists_inactive
    (store : Store) (s : String) (canvas : List JSValue) (px : JSValue)
    (hmap : validateMapId (JSValue.str s) = true)
    (hvalid : validatePixelData px = true)
    (hall : ∀ q ∈ canvas, getField q "IsActive" = JSValue.bool true)
    (hstore : store ("canvas:" ++ s) = some canvas) :
    ∀ q ∈ (((handlePixelUpdate store (mkPixelUpdateMsg s px)).1
        ("canvas:" ++ s)).getD []),
      getField q "IsActive" = JSValue.bool true := by
  have hkey : (handlePixelUpdate store (mkPixelUpdateMsg s px)).1
      ("canvas:" ++ s) = some (applyPixelMerge canvas px) := by
    simp only [handlePixelUpdate,
      show getField (mkPixelUpdateMsg s px) "MapIdent" = JSValue.str s
        from rfl,
      show getField (mkPixelUpdateMsg s px) "SinglePixel" = px from rfl,
      hmap, hvalid, Bool.not_true, Bool.false_eq_true, if_false]
    rw [show jsStrVal (JSValue.str s) = s from rfl, hstore]
    unfold storePut
    simp
  rw [hkey, Option.getD_some]
  intro q hq
  obtain ⟨b, hb⟩ := isActive_bool_of_valid hvalid
  cases b with
  | true =>
    have hact : jsTruthy (getField px "IsActive") = true := by
      rw [hb]; rfl
    rw [applyPixelMerge_active hact] at hq
    rcases mem_upsertFirst hq with h | rfl
    · exact hall q h
    · exact hb
  | false =>
    have hact : jsTruthy (getField px "IsActive") = false := by
      rw [hb]; rfl
    rw [applyPixelMerge_inactive hact] at hq
    exact hall q (List.mem_filter.mp hq).1

/-- Witness for the amended C5: an active update of the all-active
one-pixel canvas [pxRed] stored for map m keeps every stored pixel
active. -/
theorem pixel_update_never_persists_inactive_witness :
    (validateMapId (JSValue.str "m") = true ∧
      validatePixelData pxGreen = true ∧
      (∀ q ∈ [pxRed], getField q "IsActive" = JSValue.bool true) ∧
      storePut emptyStore "canvas:m" [pxRed] ("canvas:" ++ "m")
        = some [pxRed]) ∧
    ∀ q ∈ (((handlePixelUpdate (storePut emptyStore "canvas:m" [pxRed])
        (mkPixelUpdateMsg "m" pxGreen)).1 ("canvas:" ++ "m")).getD []),
      getField q "IsActive" = JSValue.bool true :=
  ⟨⟨by decide, by decide, by intro q hq; rw [List.mem_singleton.mp hq]; rfl, rfl⟩,
    pixel_update_never_persists_inactive
      (storePut emptyStore "canvas:m" [pxRed]) "m" [pxRed] pxGreen
      (by decide) (by decide)
      (by intro q hq; rw [List.mem_singleton.mp hq]; rfl) rfl⟩

/-- Flattening consecutive CHUNK_SIZE slices reassembles any list whose
length fits in the sliced range. -/
theorem flatten_chunk_slices :
    ∀ (n : Nat) (P : List JSValue), P.length ≤ n * CHUNK_SIZE →
      ((List.range n).map
          (fun i => (P.drop (i * CHUNK_SIZE)).take CHUNK_SIZE)).flatten
        = P := by
  intro n
  induction n with
  | zero =>
    intro P h
    have : P = [] := List.eq_nil_of_length_eq_zero (by omega)
    simp [this]
  | succ n ih =>
    intro P h
    rw [List.range_succ_eq_map, List.map_cons, List.map_map,
      List.flatten_cons]
    have hmap : ((List.range n).map
          ((fun i => (P.drop (i * CHUNK_SIZE)).take CHUNK_SIZE) ∘ Nat.succ))
        = (List.range n).map
          (fun i => ((P.drop CHUNK_SIZE).drop (i * CHUNK_SIZE)).take
            CHUNK_SIZE) := by
      apply List.map_congr_left
      intro i _
      simp only [Function.comp_apply, List.drop_drop]
      congr 2
      rw [Nat.succ_eq_add_one]
      ring
    rw [hmap, ih (P.drop CHUNK_SIZE)
      (by simp only [List.length_drop, CHUNK_SIZE] at h ⊢; omega)]
    simp

/-- The pixel payloads of the chunk frames flatten back to the full
stored sequence. -/
theorem sendChunkedCanvasData_flatten (m : JSValue) (P : List JSValue) :
    ((sendChunkedCanvasData m P).map pixelsOfOut).flatten = P := by
  have hfit : P.length
      ≤ ((P.length + (CHUNK_SIZE - 1)) / CHUNK_SIZE) * CHUNK_SIZE := by
    have hdm := Nat.div_add_mod (P.length + (CHUNK_SIZE - 1)) CHUNK_SIZE
    have hlt : (P.length + (CHUNK_SIZE - 1)) % CHUNK_SIZE < CHUNK_SIZE :=
      Nat.mod_lt _ (by simp [CHUNK_SIZE])
    simp only [CHUNK_SIZE] at hdm hlt ⊢
    omega
  simpa [sendChunkedCanvasData, List.map_map, Function.comp, pixelsOfOut]
    using flatten_chunk_slices ((P.length + (CHUNK_SIZE - 1)) / CHUNK_SIZE)
      P hfit

theorem countP_range_last (n : Nat) (hn : 0 < n) :
    (List.range n).countP (fun i => i == n - 1) = 1 := by
  obtain ⟨m, rfl⟩ : ∃ m, n = m + 1 := ⟨n - 1, by omega⟩
  rw [List.range_succ, List.countP_append]
  simp only [Nat.add_sub_cancel]
  have h0 : (List.range m).countP (fun i => i == m) = 0 := by
    rw [List.countP_eq_zero]
    intro a ha
    simp only [List.mem_range] at ha
    simp only [beq_iff_eq]
    omega
  rw [h0]
  simp

/-- Claim C2: for a stored sequence longer than CHUNK_SIZE, the chunked
response is a sequence of canvas_data_chunk frames whose ChunkIndex equals
its emission position (hence strictly increasing from 0), every frame
carries TotalChunks = ceil(N / CHUNK_SIZE), the payloads flatten back to
the stored sequence in order, and exactly one frame — the one at the
highest index — has IsLastChunk = true. -/
theorem chunked_canvas_data_reconstruction (m : JSValue) (P : List JSValue)
    (hlen : CHUNK_SIZE < P.length) :
    (sendChunkedCanvasData m P).length
        = (P.length + (CHUNK_SIZE - 1)) / CHUNK_SIZE ∧
    (∀ i (h : i < (sendChunkedCanvasData m P).length),
      ∃ pix, (sendChunkedCanvasData m P).get ⟨i, h⟩
        = OutMsg.canvasDataChunk m pix i
            ((P.length + (CHUNK_SIZE - 1)) / CHUNK_SIZE)
            (i == (P.length + (CHUNK_SIZE - 1)) / CHUNK_SIZE - 1)) ∧
    ((sendChunkedCanvasData m P).map pixelsOfOut).flatten = P ∧
    (sendChunkedCanvasData m P).countP isLastChunkOf = 1 := by
  refine ⟨by simp [sendChunkedCanvasData], ?_,
    sendChunkedCanvasData_flatten m P, ?_⟩
  · intro i h
    refine ⟨(P.drop (i * CHUNK_SIZE)).take CHUNK_SIZE, ?_⟩
    simp only [sendChunkedCanvasData] at h ⊢
    simp [List.get_eq_getElem]
  · have hpos : 0 < (P.length + (CHUNK_SIZE - 1)) / CHUNK_SIZE := by
      have : CHUNK_SIZE ≤ P.length + (CHUNK_SIZE - 1) := by
        simp only [CHUNK_SIZE] at hlen ⊢
        omega
      exact Nat.div_pos this (by simp [CHUNK_SIZE])
    simp only [sendChunkedCanvasData, List.countP_map]
    simpa [Function.comp, isLastChunkOf]
      using countP_range_last ((P.length + (CHUNK_SIZE - 1)) / CHUNK_SIZE)
        hpos

set_option maxRecDepth 4096 in
/-- Witness for C2 at a 250-pixel canvas (list of 250 copies of pxRed):
the hypothesis CHUNK_SIZE < 250 holds and the reconstruction property
follows by instantiating the theorem. -/
theorem chunked_canvas_data_reconstruction_witness :
    (CHUNK_SIZE < (List.replicate 250 pxRed).length) ∧
    ((sendChunkedCanvasData (JSValue.str "m")
        (List.replicate 250 pxRed)).map pixelsOfOut).flatten
      = List.replicate 250 pxRed ∧
    (sendChunkedCanvasData (JSValue.str "m")
        (List.replicate 250 pxRed)).countP isLastChunkOf = 1 :=
  ⟨by decide,
    (chunked_canvas_data_reconstruction (JSValue.str "m")
      (List.replicate 250 pxRed) (by decide)).2.2.1,
    (chunked_canvas_data_reconstruction (JSValue.str "m")
      (List.replicate 250 pxRed) (by decide)).2.2.2⟩

/-- Reduction of handleSaveCanvas on a well-formed save_canvas message
with a valid map id and all-valid pixels: the array is stored verbatim
and the ack carries its length. -/
theorem handleSaveCanvas_reduce (store : Store) (s : String)
    (l : List JSValue) (hmap : validateMapId (JSValue.str s) = true)
    (hall : l.all validatePixelData = true) :
    handleSaveCanvas store (mkSaveMsg s l)
      = (storePut store ("canvas:" ++ s) l,
          [OutMsg.saveCanvasAck (JSValue.str s) l.length]) := by
  have h1 : getField (mkSaveMsg s l) "MapIdent" = JSValue.str s := rfl
  have h2 : getField (mkSaveMsg s l) "PixelData" = JSValue.arr l := rfl
  simp only [handleSaveCanvas, h1, h2, hmap, hall, Bool.not_true,
    Bool.false_eq_true, if_false, if_true]
  rfl

/-- Reduction of handleRequestCanvasData on a well-formed
request_canvas_data message for a stored canvas: the store is untouched
and the response is chunked exactly when the pixel count exceeds
CHUNK_SIZE. -/
theorem handleRequestCanvasData_reduce (store : Store) (s : String)
    (P : List JSValue) (hmap : validateMapId (JSValue.str s) = true)
    (hstore : store ("canvas:" ++ s) = some P) :
    handleRequestCanvasData store (mkRequestMsg s)
      = (store,
          if P.length > CHUNK_SIZE then
            sendChunkedCanvasData (JSValue.str s) P
          else [OutMsg.canvasData (JSValue.str s) P]) := by
  have h1 : getField (mkRequestMsg s) "MapIdent" = JSValue.str s := rfl
  simp only [handleRequestCanvasData, h1, hmap, Bool.not_true,
    Bool.false_eq_true, if_false]
  rw [show jsStrVal (JSValue.str s) = s from rfl, hstore]
  simp only [Option.getD_some]
  by_cases hc : P.length > CHUNK_SIZE
  · rw [if_pos hc, if_pos hc]
  · rw [if_neg hc, if_neg hc]

/-- Claim C4: a save_canvas whose MapIdent is valid and whose every array
element passes pixel validation stores the submitted sequence verbatim
(duplicate Positions included) and acknowledges with the submitted
length. -/
theorem save_canvas_verbatim_ack (store : Store) (s : String)
    (l : List JSValue) (hmap : validateMapId (JSValue.str s) = true)
    (hall : l.all validatePixelData = true) :
    (handleSaveCanvas store (mkSaveMsg s l)).1 ("canvas:" ++ s) = some l ∧
    (handleSaveCanvas store (mkSaveMsg s l)).2
      = [OutMsg.saveCanvasAck (JSValue.str s) l.length] := by
  rw [handleSaveCanvas_reduce store s l hmap hall]
  constructor
  · unfold storePut
    simp
  · rfl

/-- Witness for C4: saving the two-pixel array [pxRed, pxGreen], whose
entries share position (0,0), stores it verbatim (not deduplicated) and
acknowledges a count of 2. -/
theorem save_canvas_verbatim_ack_witness :
    (validateMapId (JSValue.str "m") = true ∧
      List.all [pxRed, pxGreen] validatePixelData = true ∧
      samePos pxRed pxGreen = true) ∧
    ((handleSaveCanvas emptyStore (mkSaveMsg "m" [pxRed, pxGreen])).1
        ("canvas:" ++ "m") = some [pxRed, pxGreen] ∧
      (handleSaveCanvas emptyStore (mkSaveMsg "m" [pxRed, pxGreen])).2
        = [OutMsg.saveCanvasAck (JSValue.str "m") 2]) :=
  ⟨⟨by decide, by decide, by decide⟩,
    save_canvas_verbatim_ack emptyStore "m" [pxRed, pxGreen]
      (by decide) (by decide)⟩

/-- Claim C3: saving pixel list P for a valid map and then requesting the
canvas returns, across the response frames (one canvas_data frame or the
chunk sequence), exactly the pixels of P, so the returned pixel set
equals P. -/
theorem save_then_request_roundtrip (store : Store) (s : String)
    (l : List JSValue) (hmap : validateMapId (JSValue.str s) = true)
    (hall : l.all validatePixelData = true) :
    ((handleRequestCanvasData (handleSaveCanvas store (mkSaveMsg s l)).1
        (mkRequestMsg s)).2.map pixelsOfOut).flatten = l ∧
    ∀ q, (q ∈ ((handleRequestCanvasData
        (handleSaveCanvas store (mkSaveMsg s l)).1
        (mkRequestMsg s)).2.map pixelsOfOut).flatten ↔ q ∈ l) := by
  have hmain : ((handleRequestCanvasData
      (handleSaveCanvas store (mkSaveMsg s l)).1
      (mkRequestMsg s)).2.map pixelsOfOut).flatten = l := by
    rw [handleSaveCanvas_reduce store s l hmap hall]
    rw [handleRequestCanvasData_reduce (storePut store ("canvas:" ++ s) l)
      s l hmap (by unfold storePut; simp)]
    by_cases hc : l.length > CHUNK_SIZE
    · rw [if_pos hc]
      exact sendChunkedCanvasData_flatten (JSValue.str s) l
    · rw [if_neg hc]
      simp [pixelsOfOut]
  exact ⟨hmain, fun q => by rw [hmain]⟩

/-- Witness for C3: saving [pxRed, pxFar] for map m and requesting it
back returns exactly those two pixels. -/
theorem save_then_request_roundtrip_witness :
    (validateMapId (JSValue.str "m") = true ∧
      List.all [pxRed, pxFar] validatePixelData = true) ∧
    ((handleRequestCanvasData
        (handleSaveCanvas emptyStore (mkSaveMsg "m" [pxRed, pxFar])).1
        (mkRequestMsg "m")).2.map pixelsOfOut).flatten = [pxRed, pxFar] :=
  ⟨⟨by decide, by decide⟩,
    (save_then_request_roundtrip emptyStore "m" [pxRed, pxFar]
      (by decide) (by decide)).1⟩

/-- Claim C6: the response to request_canvas_data is a single untagged
canvas_data frame carrying the whole stored sequence whenever the stored
pixel count is at most CHUNK_SIZE (in particular for 50 pixels), and for
250 stored pixels it is exactly 3 canvas_data_chunk frames of sizes 100,
100 and 50. -/
theorem request_canvas_chunking_threshold (store : Store) (s : String)
    (P : List JSValue) (hmap : validateMapId (JSValue.str s) = true)
    (hstore : store ("canvas:" ++ s) = some P) :
    (handleRequestCanvasData store (mkRequestMsg s)).1 = store ∧
    (P.length ≤ CHUNK_SIZE →
      (handleRequestCanvasData store (mkRequestMsg s)).2
        = [OutMsg.canvasData (JSValue.str s) P]) ∧
    (P.length = 250 →
      (handleRequestCanvasData store (mkRequestMsg s)).2.map
          (fun o => (pixelsOfOut o).length) = [100, 100, 50] ∧
      ∀ o ∈ (handleRequestCanvasData store (mkRequestMsg s)).2,
        ∃ pix i last, o = OutMsg.canvasDataChunk (JSValue.str s) pix i
          3 last) := by
  rw [handleRequestCanvasData_reduce store s P hmap hstore]
  refine ⟨by by_cases hc : P.length > CHUNK_SIZE <;> simp [hc], ?_, ?_⟩
  · intro hle
    rw [if_neg (by omega)]
  · intro h250
    rw [if_pos (by simp [CHUNK_SIZE, h250])]
    have h3 : (P.length + (CHUNK_SIZE - 1)) / CHUNK_SIZE = 3 := by
      rw [h250]; decide
    have hchunks : sendChunkedCanvasData (JSValue.str s) P
        = [OutMsg.canvasDataChunk (JSValue.str s)
            ((P.drop 0).take CHUNK_SIZE) 0 3 false,
          OutMsg.canvasDataChunk (JSValue.str s)
            ((P.drop CHUNK_SIZE).take CHUNK_SIZE) 1 3 false,
          OutMsg.canvasDataChunk (JSValue.str s)
            ((P.drop (2 * CHUNK_SIZE)).take CHUNK_SIZE) 2 3 true] := by
      simp only [sendChunkedCanvasData, h3]
      rw [show List.range 3 = [0, 1, 2] from rfl]
      simp only [List.map_cons, List.map_nil]
      norm_num
    rw [hchunks]
    constructor
    · simp only [List.map_cons, List.map_nil, pixelsOfOut,
        List.length_take, List.length_drop, h250, CHUNK_SIZE]
      norm_num
    · intro o ho
      simp only [List.mem_cons, List.not_mem_nil, or_false] at ho
      rcases ho with rfl | rfl | rfl
      · exact ⟨_, 0, false, rfl⟩
      · exact ⟨_, 1, false, rfl⟩
      · exact ⟨_, 2, true, rfl⟩

set_option maxRecDepth 8192 in
/-- Witness for C6: a 50-pixel canvas is returned as one canvas_data
frame, and a 250-pixel canvas as three chunks of sizes 100, 100, 50. -/
theorem request_canvas_chunking_threshold_witness :
    (validateMapId (JSValue.str "m") = true ∧
      storePut emptyStore "canvas:m" (List.replicate 50 pxRed)
        ("canvas:" ++ "m") = some (List.replicate 50 pxRed) ∧
      (List.replicate 50 pxRed).length ≤ CHUNK_SIZE ∧
      storePut emptyStore "canvas:m" (List.replicate 250 pxRed)
        ("canvas:" ++ "m") = some (List.replicate 250 pxRed) ∧
      (List.replicate 250 pxRed).length = 250) ∧
    (handleRequestCanvasData
        (storePut emptyStore "canvas:m" (List.replicate 50 pxRed))
        (mkRequestMsg "m")).2
      = [OutMsg.canvasData (JSValue.str "m") (List.replicate 50 pxRed)] ∧
    (handleRequestCanvasData
        (storePut emptyStore "canvas:m" (List.replicate 250 pxRed))
        (mkRequestMsg "m")).2.map (fun o => (pixelsOfOut o).length)
      = [100, 100, 50] :=
  ⟨⟨by decide, rfl, by decide, rfl, by decide⟩,
    (request_canvas_chunking_threshold
        (storePut emptyStore "canvas:m" (List.replicate 50 pxRed)) "m"
        (List.replicate 50 pxRed) (by decide) rfl).2.1 (by decide),
    ((request_canvas_chunking_threshold
        (storePut emptyStore "canvas:m" (List.replicate 250 pxRed)) "m"
        (List.replicate 250 pxRed) (by decide) rfl).2.2 (by decide)).1⟩

/-- Counterexample to claim C8 as stated: the validator accepts a payload
whose PlacedBy is the empty string, although the claim requires PlacedBy
to be a non-empty string; the code only checks typeof, not emptiness. -/
theorem validator_accepts_empty_placedby :
    validatePixelData pxEmptyPlacedBy = true ∧
    ¬ specPixelShapeStrict pxEmptyPlacedBy := by
  refine ⟨by decide, ?_⟩
  rintro ⟨-, t, ht, hne⟩
  rw [show getField pxEmptyPlacedBy "PlacedBy" = JSValue.str "" from rfl]
    at ht
  exact hne (JSValue.str.inj ht).symm

/-- Claim C8 (amended): the pixel validator accepts a payload if and only
if it has a Position with numeric x and y, a Color with numeric r, g, b
and a, a PlacedBy that is a string (possibly empty), and a boolean
IsActive; any missing or mistyped field fails validation. -/
theorem validate_pixel_iff_shape (p : JSValue) :
    validatePixelData p = true ↔ specPixelFields p := by
  constructor
  · intro h
    simp only [validatePixelData, Bool.and_eq_true] at h
    obtain ⟨⟨⟨⟨⟨⟨⟨⟨⟨⟨h1, h2⟩, h3⟩, h4⟩, h5⟩, h6⟩, h7⟩, h8⟩, h9⟩,
      h10⟩, h11⟩ := h
    exact ⟨jsTypeof_number h3, jsTypeof_number h4, jsTypeof_number h6,
      jsTypeof_number h7, jsTypeof_number h8, jsTypeof_number h9,
      jsTypeof_string h10, jsTypeof_boolean h11⟩
  · rintro ⟨⟨nx, hx⟩, ⟨ny, hy⟩, ⟨nr, hr⟩, ⟨ng, hg⟩, ⟨nb, hb⟩, ⟨na', hna⟩,
      ⟨sp, hsp⟩, ⟨bi, hbi⟩⟩
    obtain ⟨f, rfl⟩ : ∃ f, p = JSValue.obj f :=
      obj_of_getField_not_missing (k := "PlacedBy")
        (by rw [hsp]; exact fun h => JSValue.noConfusion h)
    obtain ⟨fp, hfp⟩ : ∃ fp,
        getField (JSValue.obj f) "Position" = JSValue.obj fp :=
      obj_of_getField_not_missing (k := "x")
        (by rw [hx]; exact fun h => JSValue.noConfusion h)
    obtain ⟨fc, hfc⟩ : ∃ fc,
        getField (JSValue.obj f) "Color" = JSValue.obj fc :=
      obj_of_getField_not_missing (k := "r")
        (by rw [hr]; exact fun h => JSValue.noConfusion h)
    rw [hfp] at hx hy
    rw [hfc] at hr hg hb hna
    simp only [validatePixelData, Bool.and_eq_true, hfp, hfc, hx, hy, hr,
      hg, hb, hna, hsp, hbi, jsTruthy, jsTypeof]
    simp

/-- Claim C9 (amended): the router applies the size ceiling before
parsing — an oversized frame yields only the size error, whatever its
content, leaving the store untouched and subsequent frames processed
exactly as without it — and a parsed frame carrying a non-empty string
Type outside the three known operations yields only an error naming that
Type, again leaving the session usable (a missing, empty or non-string
Type instead yields the structure error, which does not name it). -/
theorem router_size_and_unknown_type (store : Store) (fr : Frame)
    (rest : List Frame) :
    (fr.byteLength > MAX_MESSAGE_SIZE →
      handleWebSocketMessage store fr
        = (store, [OutMsg.errorMsg "Message too large"]) ∧
      processFrames store (fr :: rest)
        = ((processFrames store rest).1,
            OutMsg.errorMsg "Message too large"
              :: (processFrames store rest).2)) ∧
    (∀ msg t, ¬ fr.byteLength > MAX_MESSAGE_SIZE → fr.parsed = some msg →
      getField msg "Type" = JSValue.str t → t ≠ "" →
      t ≠ "request_canvas_data" → t ≠ "pixel_update" →
      t ≠ "save_canvas" →
      handleWebSocketMessage store fr
        = (store, [OutMsg.errorMsg ("Unknown message type: " ++ t)]) ∧
      processFrames store (fr :: rest)
        = ((processFrames store rest).1,
            OutMsg.errorMsg ("Unknown message type: " ++ t)
              :: (processFrames store rest).2)) := by
  constructor
  · intro hsize
    have hmain : handleWebSocketMessage store fr
        = (store, [OutMsg.errorMsg "Message too large"]) := by
      unfold handleWebSocketMessage
      rw [if_pos hsize]
    exact ⟨hmain, by simp [processFrames, hmain]⟩
  · intro msg t hsize hparsed hty htne h1 h2 h3
    have hmain : handleWebSocketMessage store fr
        = (store, [OutMsg.errorMsg ("Unknown message type: " ++ t)]) := by
      unfold handleWebSocketMessage
      rw [if_neg hsize, hparsed]
      simp only [hty]
      have htruthy : jsTruthy (JSValue.str t) = true := by
        simp [jsTruthy, htne]
      rw [htruthy]
      simp only [jsTypeof, Bool.not_true, Bool.false_or, bne_self_eq_false,
        Bool.false_eq_true, if_false]
      rw [show jsStrVal (JSValue.str t) = t from rfl]
      split
      · exact absurd rfl h1
      · exact absurd rfl h2
      · exact absurd rfl h3
      · rfl
    exact ⟨hmain, by simp [processFrames, hmain]⟩

/-- Witness for C9: a 1,000,001-byte frame draws only the size error, and
a small frame with Type bogus draws only the unknown-type error naming
bogus, each leaving the store unchanged. -/
theorem router_size_and_unknown_type_witness :
    ((1000001 : Nat) > MAX_MESSAGE_SIZE ∧
      handleWebSocketMessage emptyStore ⟨1000001, none⟩
        = (emptyStore, [OutMsg.errorMsg "Message too large"])) ∧
    (¬ (29 : Nat) > MAX_MESSAGE_SIZE ∧
      handleWebSocketMessage emptyStore
          ⟨29, some (JSValue.obj [("Type", JSValue.str "bogus")])⟩
        = (emptyStore,
            [OutMsg.errorMsg ("Unknown message type: " ++ "bogus")])) :=
  ⟨⟨by decide,
      ((router_size_and_unknown_type emptyStore ⟨1000001, none⟩ []).1
        (by decide)).1⟩,
    ⟨by decide,
      ((router_size_and_unknown_type emptyStore
          ⟨29, some (JSValue.obj [("Type", JSValue.str "bogus")])⟩ []).2
        (JSValue.obj [("Type", JSValue.str "bogus")]) "bogus"
        (by decide) rfl rfl (by decide) (by decide) (by decide)
        (by decide)).1⟩⟩

/-- Counterexample to claim C9 as stated: the parsed frame with the
empty-string Type — a Type that is none of the three known operations —
yields the structure error "Missing or invalid message type", not an
unknown-type error naming the offending Type. -/
theorem empty_type_frame_not_named_in_error :
    frameEmptyType.byteLength ≤ MAX_MESSAGE_SIZE ∧
    frameEmptyType.parsed
      = some (JSValue.obj [("Type", JSValue.str "")]) ∧
    getField (JSValue.obj [("Type", JSValue.str "")]) "Type"
      = JSValue.str "" ∧
    handleWebSocketMessage emptyStore frameEmptyType
      = (emptyStore, [OutMsg.errorMsg "Missing or invalid message type"]) ∧
    OutMsg.errorMsg "Missing or invalid message type"
      ≠ OutMsg.errorMsg ("Unknown message type: " ++ "") := by
  refine ⟨by decide, rfl, rfl, rfl, ?_⟩
  intro h
  exact absurd (OutMsg.errorMsg.inj h) (by decide)

end PlaceWeb
